import Mathlib

/-!
Verification development for `rescan.py`, a tool that reconciles a media file
tree against a Plex media catalog.  The Python source is shallowly embedded:
pure helpers become Lean functions, the mutable globals (`library_files`,
`scanned_folders`, the `RunStats` object) become explicit state passed through
the run, and every external effect (filesystem walk, Plex HTTP responses,
symlink probing, re-index calls) is a field of an `Env` record supplied to the
run.  String functions from the Python standard library (`os.path.normpath`,
`os.path.splitext`, `os.path.dirname`, `os.path.join`, `str.startswith`,
`str.lower`) are modelled over `List Char` with structural recursion so that
every definition evaluates inside the kernel.
-/

namespace Rescan

/-- Model of `str.startswith`: `listStartsWith s p` is true when `p` is an
initial segment of `s` (character lists). -/
def listStartsWith : List Char → List Char → Bool
  | _, [] => true
  | [], _ :: _ => false
  | c :: cs, p :: ps => c = p && listStartsWith cs ps

/-- Model of Python `str.split("/")`: splits a character list at every slash,
keeping empty components, as `"".split("/") == [""]` does. -/
def splitSlash : List Char → List (List Char)
  | [] => [[]]
  | c :: cs =>
    let rest := splitSlash cs
    if c = '/' then [] :: rest
    else
      match rest with
      | r :: rs => (c :: r) :: rs
      | [] => [[c]]

/-- Model of `"/".join(comps)` on character lists. -/
def intercalateSlash : List (List Char) → List Char
  | [] => []
  | [c] => c
  | c :: cs => c ++ '/' :: intercalateSlash cs

/-- ASCII lowering of one character, as `str.lower` acts on the ASCII
characters that occur in media file extensions. -/
def lowerChar (c : Char) : Char :=
  if 'A' ≤ c && c ≤ 'Z' then Char.ofNat (c.toNat + 32) else c

/-- Model of `str.lower` (ASCII range). -/
def lowerStr (s : String) : String :=
  String.mk (s.toList.map lowerChar)

/-- Suffix of a character list starting at its last dot, or `[]` when the list
has no dot. -/
def lastDotSuffix : List Char → List Char
  | [] => []
  | c :: cs =>
    let r := lastDotSuffix cs
    if r.isEmpty then (if c = '.' then c :: cs else []) else r

/-- Extension of a basename per `posixpath.splitext` (the walked names contain
no directory separator): the suffix from the last dot, where a run of leading
dots never starts an extension. -/
def extOf (name : List Char) : List Char :=
  let stripped := name.dropWhile (fun c => c = '.')
  if stripped.any (fun c => c = '.') then lastDotSuffix name else []

/-- Model of `os.path.splitext(file)[1]` for a basename. -/
def splitextExt (file : String) : String :=
  String.mk (extOf file.toList)

/-- Membership of a string in a list, modelling the Python `in` operator. -/
def listHas (l : List String) (x : String) : Bool :=
  l.any (fun y => decide (y = x))

/-- Model of `posixpath.normpath`: eliminates empty and `.` components,
resolves `..` syntactically and preserves one or two leading slashes. -/
def normpath (p : String) : String :=
  if p = "" then "." else
  let cs := p.toList
  let initialSlashes : Nat :=
    if listStartsWith cs ['/'] then
      if listStartsWith cs ['/', '/'] && !listStartsWith cs ['/', '/', '/'] then 2 else 1
    else 0
  let comps := splitSlash cs
  let newComps := comps.foldl (fun acc comp =>
    if comp = [] ∨ comp = ['.'] then acc
    else if comp ≠ ['.', '.'] ∨ (initialSlashes = 0 ∧ acc = []) ∨
            (acc ≠ [] ∧ acc.getLast? = some ['.', '.']) then acc ++ [comp]
    else if acc ≠ [] then acc.dropLast else acc) ([] : List (List Char))
  let joined := List.replicate initialSlashes '/' ++ intercalateSlash newComps
  if joined = [] then "." else String.mk joined

/-- Everything up to and including the last slash of a character list, or `[]`
when there is no slash; the `head` of `posixpath.dirname`. -/
def upToLastSlash : List Char → List Char
  | [] => []
  | c :: cs =>
    let r := upToLastSlash cs
    if r.isEmpty then (if c = '/' then ['/'] else []) else c :: r

/-- Model of `os.path.dirname`: the part before the last slash, with trailing
slashes stripped unless the result consists only of slashes. -/
def dirname (p : String) : String :=
  let head := upToLastSlash p.toList
  if head ≠ [] ∧ head.any (fun c => c ≠ '/') then
    String.mk ((head.reverse.dropWhile (fun c => c = '/')).reverse)
  else String.mk head

/-- Model of `os.path.join(root, file)` for two components. -/
def joinPath (a b : String) : String :=
  if listStartsWith b.toList ['/'] then b
  else if a = "" ∨ a.toList.getLast? = some '/' then a ++ b
  else a ++ "/" ++ b

/-- MEDIA_EXTENSIONS from rescan.py lines 69-73 (a Python set literal; only
membership is ever used, so a list is an adequate model). -/
def MEDIA_EXTENSIONS : List String :=
  [".mp4", ".mkv", ".avi", ".mov", ".wmv", ".flv", ".webm",
   ".m4v", ".m4p", ".m4b", ".m4r", ".3gp", ".mpg", ".mpeg",
   ".m2v", ".m2ts", ".ts", ".vob", ".iso"]

/-- A Plex library section: the `key`, `type`, `title` attributes and the
`Location` paths that both `plex.library.sections()` and the
`/library/sections` XML response report for it. -/
structure PlexSection where
  key : String
  type : String
  title : String
  locations : List String
  deriving DecidableEq, Repr

/-- Python truthiness of an optional string (`if not library_id`): `None` and
the empty string are falsy. -/
def truthyStr : Option String → Bool
  | none => false
  | some s => if s = "" then false else true

/-- Flattened `(section_id, section_type, location_path, section_title)` rows,
as built by the nested loops at rescan.py lines 314-323. -/
def matchingSections (sections : List PlexSection) :
    List (String × String × String × String) :=
  sections.flatMap (fun s => s.locations.map (fun loc => (s.key, s.type, loc, s.title)))

/-- Guard of the best-match loop at rescan.py line 335: the normalized file
path starts (as a raw string) with the normalized location. -/
def rowMatches (file_path : String) (row : String × String × String × String) : Bool :=
  listStartsWith (normpath file_path).toList (normpath row.2.2.1).toList

/-- One iteration of the best-match loop at rescan.py lines 329-339: keep the
match whose normalized location is strictly longer than the best so far. -/
def bestStep (file_path : String) (acc : Option (String × String) × Nat)
    (row : String × String × String × String) : Option (String × String) × Nat :=
  if rowMatches file_path row then
    if (normpath row.2.2.1).length > acc.2 then
      (some (row.1, row.2.2.2), (normpath row.2.2.1).length)
    else acc
  else acc

/-- Model of `get_library_id_for_path` (rescan.py lines 300-347).  The HTTP
fetch of `/library/sections` is supplied as `fetch`; a `RequestException`
(`Except.error`) yields `(None, None)` as at lines 309-311. -/
def get_library_id_for_path (fetch : Except Unit (List PlexSection))
    (file_path : String) : Option String × Option String :=
  match fetch with
  | .error _ => (none, none)
  | .ok sections =>
    let best := (matchingSections sections).foldl (bestStep file_path) (none, 0)
    match best.1 with
    | some it => (some it.1, some it.2)
    | none => (none, none)

/-- State of the global `library_files` cache (rescan.py line 78): an
association list from library section id to the set of cached file paths,
the set being modelled as a duplicate-free list in insertion order. -/
abbrev LibFiles := List (String × List String)

/-- Membership of a key, modelling `library_id in library_files`. -/
def lfContains (st : LibFiles) (id : String) : Bool :=
  st.any (fun kv => decide (kv.1 = id))

/-- Lookup of a key in the cache. -/
def lfLookup : LibFiles → String → Option (List String)
  | [], _ => none
  | kv :: rest, id => if kv.1 = id then some kv.2 else lfLookup rest id

/-- Store a value under a key (dict update: replace or append). -/
def lfInsert : LibFiles → String → List String → LibFiles
  | [], id, v => [(id, v)]
  | kv :: rest, id, v => if kv.1 = id then (id, v) :: rest else kv :: lfInsert rest id v

/-- Model of `del library_files[library_id]`. -/
def lfErase (st : LibFiles) (id : String) : LibFiles :=
  st.filter (fun kv => !decide (kv.1 = id))

/-- Model of `set.add`: append the element when it is not yet present. -/
def setAdd (s : List String) (x : String) : List String :=
  if listHas s x then s else s ++ [x]

/-- Model of a `defaultdict(set)` read `library_files[library_id]`: return the
stored set, or insert and return an empty one when the key is absent. -/
def ddGet (st : LibFiles) (id : String) : List String × LibFiles :=
  match lfLookup st id with
  | some v => (v, st)
  | none => ([], lfInsert st id [])

/-- Environment of one run: every external collaborator the scan touches.
`plexSections` is what `plex.library.sections()` and `sectionByID` report;
`httpSections` is the `/library/sections` XML response consumed by
`get_library_id_for_path` (an `Except.error` models a RequestException); both
are modelled as stable for the duration of the run.  `buildFiles id` is the
outcome of iterating the items of section `id` in `cache_library_files`: on
success the list of part file paths in iteration order, on failure (any
exception mid-iteration) the paths already added before the exception.
`scans` pairs each configured scan directory with `none` when
`os.path.isdir` fails and otherwise with the `os.walk` output, as a list of
`(root, files)` entries.  `reindexOk` is the outcome of the HTTP refresh
request issued by `scan_folder`. -/
structure Env where
  plexSections : List PlexSection
  httpSections : Except Unit (List PlexSection)
  buildFiles : String → Except (List String) (List String)
  scans : List (String × Option (List (String × List String)))
  fsIslink : String → Bool
  fsRealpath : String → String
  fsPathExists : String → Bool
  symlink_check : Bool
  reindexOk : String → String → Bool

/-- Model of `cache_library_files` (rescan.py lines 349-382).  When the id is
already cached nothing happens.  Otherwise the items of the section are
iterated, each file being added to the (defaultdict-created) set; on an
exception the handler at lines 378-382 deletes whatever entry exists for the
id, so a failed build nets out to an unchanged cache. -/
def cache_library_files (env : Env) (st : LibFiles) (library_id : String) : LibFiles :=
  if lfContains st library_id then st
  else
    match env.buildFiles library_id with
    | .ok files => lfInsert st library_id (files.foldl setAdd [])
    | .error gathered =>
      let st1 := if gathered = [] then st
                 else lfInsert st library_id (gathered.foldl setAdd [])
      if lfContains st1 library_id then lfErase st1 library_id else st1

/-- Model of `is_in_plex` (rescan.py lines 384-398).  Note the membership test
`file_path in library_files[library_id]` at line 395 reads the global through
`defaultdict.__getitem__`, which inserts an empty set when the key is absent;
the updated cache is returned alongside the verdict. -/
def is_in_plex (env : Env) (st : LibFiles) (file_path : String) : Bool × LibFiles :=
  let lib := get_library_id_for_path env.httpSections file_path
  match lib.1 with
  | none => (false, st)
  | some library_id =>
    if library_id = "" then (false, st)
    else
      let st1 := cache_library_files env st library_id
      let r := ddGet st1 library_id
      (listHas r.1 file_path, r.2)

/-- Model of `is_broken_symlink` (rescan.py lines 416-420). -/
def is_broken_symlink (env : Env) (file_path : String) : Bool :=
  if !env.fsIslink file_path then false
  else !env.fsPathExists (env.fsRealpath file_path)

/-- RunStats (rescan.py lines 89-114); `start_time` is wall-clock data outside
the embedding.  `missing_items` is the `defaultdict(list)` keyed by library
title, in insertion order. -/
structure RunStats where
  missing_items : List (String × List String)
  errors : List String
  warnings : List String
  total_scanned : Nat
  total_missing : Nat
  broken_symlinks : Nat
  deriving DecidableEq, Repr

/-- RunStats constructor (rescan.py lines 91-98). -/
def RunStats.init : RunStats :=
  { missing_items := [], errors := [], warnings := [],
    total_scanned := 0, total_missing := 0, broken_symlinks := 0 }

/-- Model of `defaultdict(list)[k].append(v)`: append to the list of the first
entry with key `k`, or create the entry. -/
def ddAppend : List (String × List String) → String → String → List (String × List String)
  | [], k, v => [(k, [v])]
  | kv :: rest, k, v =>
    if kv.1 = k then (kv.1, kv.2 ++ [v]) :: rest
    else kv :: ddAppend rest k v

/-- RunStats.add_missing_item (rescan.py lines 100-102). -/
def RunStats.add_missing_item (s : RunStats) (library_name file_path : String) : RunStats :=
  { s with missing_items := ddAppend s.missing_items library_name file_path,
           total_missing := s.total_missing + 1 }

/-- RunStats.add_error (rescan.py lines 104-105). -/
def RunStats.add_error (s : RunStats) (e : String) : RunStats :=
  { s with errors := s.errors ++ [e] }

/-- RunStats.add_warning (rescan.py lines 107-108). -/
def RunStats.add_warning (s : RunStats) (w : String) : RunStats :=
  { s with warnings := s.warnings ++ [w] }

/-- RunStats.increment_scanned (rescan.py lines 110-111). -/
def RunStats.increment_scanned (s : RunStats) : RunStats :=
  { s with total_scanned := s.total_scanned + 1 }

/-- RunStats.increment_broken_symlinks (rescan.py lines 113-114). -/
def RunStats.increment_broken_symlinks (s : RunStats) : RunStats :=
  { s with broken_symlinks := s.broken_symlinks + 1 }

/-- Dict update `library_ids[lib_type] = lib_key`. -/
def alSet : List (String × String) → String → String → List (String × String)
  | [], k, v => [(k, v)]
  | kv :: rest, k, v => if kv.1 = k then (k, v) :: rest else kv :: alSet rest k v

/-- Dict read `library_ids.get(k)`. -/
def alGet : List (String × String) → String → Option String
  | [], _ => none
  | kv :: rest, k => if kv.1 = k then some kv.2 else alGet rest k

/-- Model of `get_library_ids` (rescan.py lines 285-298): fold the fetched
sections into the global type-to-key dict, starting from its previous
contents (the global is never cleared between runs). -/
def get_library_ids (initial : List (String × String)) (sections : List PlexSection) :
    List (String × String) :=
  sections.foldl (fun m s => alSet m s.type s.key) initial

/-- Mutable state threaded through `run_scan`: the RunStats object, the
`library_files` global, the local `scanned_folders` set (as a duplicate-free
list) and the list of re-index requests issued so far (each a
`(library_id, folder)` pair), recorded for observation. -/
structure ScanState where
  stats : RunStats
  libFiles : LibFiles
  scanned_folders : List String
  requests : List (String × String)
  deriving DecidableEq, Repr

/-- Model of `scan_folder` (rescan.py lines 400-414): the refresh request is
issued; on success the function logs and sleeps, on RequestException it only
logs — in both cases RunStats is untouched, so the outcome is discarded. -/
def scan_folder (env : Env) (st : ScanState) (library_id folder_path : String) : ScanState :=
  let _ok := env.reindexOk library_id folder_path
  { st with requests := st.requests ++ [(library_id, folder_path)] }

/-- Processing of one walked file name (rescan.py lines 453-486): hidden-file
and extension filters, broken-symlink check, scanned counter, membership test
and the missing-item / re-index bookkeeping. -/
def processFile (env : Env) (st : ScanState) (root file : String) : ScanState :=
  if listStartsWith file.toList ['.'] then st
  else if !listHas MEDIA_EXTENSIONS (lowerStr (splitextExt file)) then st
  else
    let file_path := joinPath root file
    if env.symlink_check && is_broken_symlink env file_path then
      { st with stats := st.stats.increment_broken_symlinks }
    else
      let st1 : ScanState := { st with stats := st.stats.increment_scanned }
      let r := is_in_plex env st1.libFiles file_path
      let st2 : ScanState := { st1 with libFiles := r.2 }
      if r.1 then st2
      else
        let lib := get_library_id_for_path env.httpSections file_path
        if truthyStr lib.2 then
          let st3 : ScanState :=
            { st2 with stats := st2.stats.add_missing_item (lib.2.getD "") file_path }
          let parent_folder := dirname file_path
          if listHas st3.scanned_folders parent_folder then st3
          else if truthyStr lib.1 then
            let st4 := scan_folder env st3 (lib.1.getD "") parent_folder
            { st4 with scanned_folders := st4.scanned_folders ++ [parent_folder] }
          else
            { st3 with stats :=
                st3.stats.add_warning ("Could not determine library for path: " ++ file_path) }
        else st2

/-- Processing of one `os.walk` entry: fold `processFile` over its files. -/
def processWalkEntry (env : Env) (st : ScanState) (entry : String × List String) : ScanState :=
  entry.2.foldl (fun s file => processFile env s entry.1 file) st

/-- Processing of one configured scan directory (rescan.py lines 443-486): a
missing directory records an error and is skipped, otherwise its walk entries
are processed in order. -/
def processScanEntry (env : Env) (st : ScanState)
    (entry : String × Option (List (String × List String))) : ScanState :=
  match entry.2 with
  | none => { st with stats := st.stats.add_error ("Directory not found: " ++ entry.1) }
  | some walk => walk.foldl (processWalkEntry env) st

/-- Observable outcome of a run: the final RunStats, the re-index requests
issued, and whether the Discord summary was dispatched. -/
structure RunResult where
  stats : RunStats
  requests : List (String × String)
  summarySent : Bool
  deriving DecidableEq, Repr

/-- Model of `run_scan` (rescan.py lines 422-489).  `library_ids0` is the
content of the global `library_ids` dict when the run starts (empty for the
first run of the process).  The `library_files` cache is cleared at line 427;
when the movie or show library key is falsy the error is recorded, the
summary sent and the run returns early (lines 434-439). -/
def run_scan (env : Env) (library_ids0 : List (String × String)) : RunResult :=
  let stats := RunStats.init
  let libFiles : LibFiles := []
  let library_ids := get_library_ids library_ids0 env.plexSections
  let movieId := alGet library_ids "movie"
  let tvId := alGet library_ids "show"
  if !truthyStr movieId || !truthyStr tvId then
    { stats := stats.add_error "Could not find both Movie and TV Show libraries.",
      requests := [], summarySent := true }
  else
    let st0 : ScanState :=
      { stats := stats, libFiles := libFiles, scanned_folders := [], requests := [] }
    let stF := env.scans.foldl (processScanEntry env) st0
    { stats := stF.stats, requests := stF.requests, summarySent := true }

/-- Pairs `(library title, file path)` recorded as missing, flattened in list
order. -/
def missingPairs (s : RunStats) : List (String × String) :=
  s.missing_items.flatMap (fun kv => kv.2.map (fun p => (kv.1, p)))

/-- Movie section used by the concrete test environments. -/
def movieSec : PlexSection := ⟨"1", "movie", "Movies", ["/media/Movies"]⟩

/-- Show section used by the concrete test environments. -/
def showSec : PlexSection := ⟨"2", "show", "TV", ["/media/TV"]⟩

/-- Show section rooted at `/media/tv`, for the nested-roots example. -/
def tvSec : PlexSection := ⟨"2", "show", "TV", ["/media/tv"]⟩

/-- Show section rooted at `/media/tv/anime`, nested inside `tvSec`. -/
def animeSec : PlexSection := ⟨"3", "show", "Anime", ["/media/tv/anime"]⟩

/-- Base environment for the concrete witnesses: movie and show sections
present, empty catalog, no filesystem anomalies, no scan directories. -/
def baseEnv : Env :=
  { plexSections := [movieSec, showSec],
    httpSections := .ok [movieSec, showSec],
    buildFiles := fun _ => .ok [],
    scans := [],
    fsIslink := fun _ => false,
    fsRealpath := fun p => p,
    fsPathExists := fun _ => true,
    symlink_check := true,
    reindexOk := fun _ _ => true }

/-- Folders for which a re-index request has been issued, in issue order. -/
def reqFolders (st : ScanState) : List String := st.requests.map Prod.snd

/-- Invariant maintained by the per-file processing: the `scanned_folders` set
is exactly the list of requested folders (hence requested folders are
duplicate-free), and every missing item whose path resolves to a truthy
library id has had its parent folder requested. -/
def ScanInv (env : Env) (st : ScanState) : Prop :=
  st.scanned_folders = reqFolders st ∧
  st.scanned_folders.Nodup ∧
  ∀ t p, (t, p) ∈ missingPairs st.stats →
    truthyStr (get_library_id_for_path env.httpSections p).1 = true →
    dirname p ∈ st.scanned_folders

/-- Invariant claimed of RunStats: the missing total equals the summed sizes
of the per-title missing lists. -/
def statsInv (s : RunStats) : Prop :=
  s.total_missing = (s.missing_items.map (fun kv => kv.2.length)).sum

/-- Environment whose inventory build always fails after having gathered one
file path. -/
def envErr : Env := { baseEnv with buildFiles := fun _ => .error ["/media/Movies/old.mkv"] }

/-- Environment whose inventory build succeeds and reports exactly
`/media/Movies/f.mkv`. -/
def envOkF : Env := { baseEnv with buildFiles := fun _ => .ok ["/media/Movies/f.mkv"] }

/-- Environment with two media files sharing the parent folder
`/media/Movies/M1`, both absent from the (empty) catalog. -/
def envC3 : Env := { baseEnv with
  scans := [("/media/Movies", some [("/media/Movies/M1", ["a.mkv", "b.mkv"])])] }

/-- Same filesystem as `envC3`, but every re-index request fails. -/
def envC5 : Env := { envC3 with reindexOk := fun _ _ => false }

/-- Environment with one media file under `/data`, a directory no section
root matches. -/
def envC6 : Env := { baseEnv with scans := [("/data", some [("/data", ["x.mkv"])])] }

/-- Environment in which every path is a symbolic link to a missing target. -/
def envLink : Env := { baseEnv with fsIslink := fun _ => true, fsPathExists := fun _ => false }

/-! ### Helper lemmas -/

theorem listHas_iff_mem {l : List String} {x : String} : listHas l x = true ↔ x ∈ l := by
  induction l with
  | nil => simp [listHas]
  | cons y ys ih =>
    simp only [listHas, List.any_cons, Bool.or_eq_true, decide_eq_true_eq] at *
    constructor
    · rintro (h | h)
      · exact h ▸ List.mem_cons_self y ys
      · exact List.mem_cons_of_mem y (ih.mp h)
    · intro h
      rcases List.mem_cons.mp h with h | h
      · left; exact h.symm
      · right; exact ih.mpr h

theorem lfContains_of_lookup {st : LibFiles} {id : String} {v : List String}
    (h : lfLookup st id = some v) : lfContains st id = true := by
  induction st with
  | nil => simp [lfLookup] at h
  | cons kv rest ih =>
    by_cases hk : kv.1 = id
    · simp [lfContains, List.any_cons, hk]
    · simp only [lfLookup, if_neg hk] at h
      have hr := ih h
      unfold lfContains at hr ⊢
      simp only [List.any_cons, Bool.or_eq_true]
      exact Or.inr hr

theorem lfContains_false_iff {st : LibFiles} {id : String} :
    lfContains st id = false ↔ ∀ kv ∈ st, kv.1 ≠ id := by
  simp [lfContains, List.any_eq_false]

theorem lfErase_of_not_contains {st : LibFiles} {id : String}
    (h : lfContains st id = false) : lfErase st id = st := by
  rw [lfContains_false_iff] at h
  induction st with
  | nil => rfl
  | cons kv rest ih =>
    have hk : kv.1 ≠ id := h kv (List.mem_cons_self _ _)
    simp only [lfErase, List.filter_cons, decide_eq_true_eq] at *
    rw [if_pos (by simpa using hk)]
    rw [ih (fun kv' hm => h kv' (List.mem_cons_of_mem _ hm))]

theorem lfInsert_not_contains {st : LibFiles} {id : String} (v : List String)
    (h : lfContains st id = false) : lfInsert st id v = st ++ [(id, v)] := by
  rw [lfContains_false_iff] at h
  induction st with
  | nil => rfl
  | cons kv rest ih =>
    have hk : kv.1 ≠ id := h kv (List.mem_cons_self _ _)
    simp only [lfInsert, if_neg hk, List.cons_append]
    rw [ih (fun kv' hm => h kv' (List.mem_cons_of_mem _ hm))]

theorem lfErase_insert_of_not_contains {st : LibFiles} {id : String} {v : List String}
    (h : lfContains st id = false) : lfErase (lfInsert st id v) id = st := by
  rw [lfInsert_not_contains v h]
  rw [lfContains_false_iff] at h
  induction st with
  | nil => simp [lfErase]
  | cons kv rest ih =>
    have hk : kv.1 ≠ id := h kv (List.mem_cons_self _ _)
    simp only [List.cons_append, lfErase, List.filter_cons, decide_eq_true_eq] at *
    rw [if_pos (by simpa using hk)]
    have := ih (fun kv' hm => h kv' (List.mem_cons_of_mem _ hm))
    simp only [lfErase] at this
    rw [this]

theorem length_pos_of_dot_ite (l : List Char) :
    0 < (if l = [] then "." else String.mk l).length := by
  split
  · decide
  · rename_i h
    simpa [String.length] using List.length_pos.mpr h

theorem normpath_length_pos (s : String) : 0 < (normpath s).length := by
  unfold normpath
  split
  · decide
  · exact length_pos_of_dot_ite _

theorem bestStep_snd_le (p : String) (acc : Option (String × String) × Nat)
    (row : String × String × String × String) : acc.2 ≤ (bestStep p acc row).2 := by
  unfold bestStep
  split
  · split
    · rename_i hlt
      exact le_of_lt hlt
    · exact le_refl _
  · exact le_refl _

theorem foldl_bestStep_snd_le (p : String) (rows : List (String × String × String × String)) :
    ∀ acc, acc.2 ≤ (rows.foldl (bestStep p) acc).2 := by
  induction rows with
  | nil => intro acc; exact le_refl _
  | cons row rest ih =>
    intro acc
    exact le_trans (bestStep_snd_le p acc row) (ih (bestStep p acc row))

theorem bestStep_cases (p : String) (acc : Option (String × String) × Nat)
    (row : String × String × String × String) :
    bestStep p acc row = acc ∨
      (rowMatches p row = true ∧
        bestStep p acc row = (some (row.1, row.2.2.2), (normpath row.2.2.1).length)) := by
  unfold bestStep
  split
  · split
    · rename_i hm _
      exact Or.inr ⟨hm, rfl⟩
    · exact Or.inl rfl
  · exact Or.inl rfl

theorem foldl_bestStep_shape (p : String) :
    ∀ (rows : List (String × String × String × String)) (acc : Option (String × String) × Nat),
      rows.foldl (bestStep p) acc = acc ∨
        ∃ r, r ∈ rows ∧ rowMatches p r = true ∧
          rows.foldl (bestStep p) acc = (some (r.1, r.2.2.2), (normpath r.2.2.1).length) := by
  intro rows
  induction rows with
  | nil => intro acc; exact Or.inl rfl
  | cons row rest ih =>
    intro acc
    have hfold : (row :: rest).foldl (bestStep p) acc = rest.foldl (bestStep p) (bestStep p acc row) := rfl
    rcases ih (bestStep p acc row) with h | ⟨r, hr, hm, he⟩
    · rcases bestStep_cases p acc row with hb | ⟨hbm, hbe⟩
      · exact Or.inl (by rw [hfold, h, hb])
      · exact Or.inr ⟨row, List.mem_cons_self _ _, hbm, by rw [hfold, h, hbe]⟩
    · exact Or.inr ⟨r, List.mem_cons_of_mem _ hr, hm, by rw [hfold, he]⟩

theorem foldl_bestStep_ge_matches (p : String) :
    ∀ (rows : List (String × String × String × String)) (acc : Option (String × String) × Nat)
      (r : String × String × String × String), r ∈ rows → rowMatches p r = true →
      (normpath r.2.2.1).length ≤ (rows.foldl (bestStep p) acc).2 := by
  intro rows
  induction rows with
  | nil => intro acc r hr; exact absurd hr (List.not_mem_nil r)
  | cons row rest ih =>
    intro acc r hr hm
    rcases List.mem_cons.mp hr with h | h
    · subst h
      have h1 : (normpath r.2.2.1).length ≤ (bestStep p acc r).2 := by
        unfold bestStep
        rw [hm]
        simp only [if_true]
        split
        · exact le_refl _
        · rename_i hle
          exact Nat.le_of_not_lt hle
      exact le_trans h1 (foldl_bestStep_snd_le p rest (bestStep p acc r))
    · exact ih (bestStep p acc row) r h hm

theorem ddAppend_sum_lengths (m : List (String × List String)) (k v : String) :
    ((ddAppend m k v).map (fun kv => kv.2.length)).sum
      = ((m.map (fun kv => kv.2.length)).sum) + 1 := by
  induction m with
  | nil => simp [ddAppend]
  | cons kv rest ih =>
    by_cases h : kv.1 = k
    · simp only [ddAppend, if_pos h, List.map_cons, List.sum_cons, List.length_append,
        List.length_singleton]
      omega
    · simp only [ddAppend, if_neg h, List.map_cons, List.sum_cons, ih]
      omega

theorem mem_ddAppend_pairs (m : List (String × List String)) (t p a b : String) :
    (a, b) ∈ (ddAppend m t p).flatMap (fun kv => kv.2.map (fun q => (kv.1, q))) ↔
      ((a, b) ∈ m.flatMap (fun kv => kv.2.map (fun q => (kv.1, q))) ∨ (a = t ∧ b = p)) := by
  induction m with
  | nil =>
    simp [ddAppend, eq_comm]
  | cons kv rest ih =>
    by_cases h : kv.1 = t
    · have hd : ddAppend (kv :: rest) t p = (kv.1, kv.2 ++ [p]) :: rest := by
        unfold ddAppend; rw [if_pos h]
      rw [hd]
      simp only [List.flatMap_cons, List.map_append, List.mem_append, List.map_cons,
        List.map_nil, List.mem_singleton, Prod.mk.injEq, h]
      tauto
    · simp only [ddAppend, if_neg h, List.flatMap_cons, List.mem_append] at ih ⊢
      tauto

theorem alGet_alSet_ne (m : List (String × String)) (k v t : String) (h : k ≠ t) :
    alGet (alSet m k v) t = alGet m t := by
  induction m with
  | nil => simp [alSet, alGet, h]
  | cons kv rest ih =>
    by_cases hk : kv.1 = k
    · simp [alSet, alGet, hk, h]
    · simp only [alSet, if_neg hk, alGet]
      split
      · rfl
      · exact ih

theorem alGet_get_library_ids_none (secs : List PlexSection) (t : String) :
    ∀ (initial : List (String × String)), alGet initial t = none →
      (∀ s ∈ secs, s.type ≠ t) → alGet (get_library_ids initial secs) t = none := by
  induction secs with
  | nil => intro initial h _; exact h
  | cons s rest ih =>
    intro initial hinit hall
    have hs : s.type ≠ t := hall s (List.mem_cons_self _ _)
    have hstep : alGet (alSet initial s.type s.key) t = none := by
      rw [alGet_alSet_ne _ _ _ _ hs]; exact hinit
    exact ih (alSet initial s.type s.key) hstep
      (fun s' hm => hall s' (List.mem_cons_of_mem _ hm))

theorem mem_missingPairs_add (s : RunStats) (t p a b : String) :
    (a, b) ∈ missingPairs (s.add_missing_item t p) ↔
      ((a, b) ∈ missingPairs s ∨ (a = t ∧ b = p)) := by
  unfold missingPairs RunStats.add_missing_item
  exact mem_ddAppend_pairs s.missing_items t p a b

theorem scanInv_of_eq_parts (env : Env) (st st' : ScanState) (h : ScanInv env st)
    (hs : st'.scanned_folders = st.scanned_folders)
    (hr : st'.requests = st.requests)
    (hm : missingPairs st'.stats = missingPairs st.stats) :
    ScanInv env st' := by
  refine ⟨?_, ?_, ?_⟩
  · rw [hs, reqFolders, hr]; exact h.1
  · rw [hs]; exact h.2.1
  · intro t p hmem ht
    rw [hs]
    exact h.2.2 t p (hm ▸ hmem) ht

theorem processFile_scanInv (env : Env) (st : ScanState) (root file : String)
    (h : ScanInv env st) : ScanInv env (processFile env st root file) := by
  unfold processFile
  dsimp only
  split
  · exact h
  split
  · exact h
  split
  · exact scanInv_of_eq_parts env st _ h rfl rfl rfl
  split
  · exact scanInv_of_eq_parts env st _ h rfl rfl rfl
  split
  · -- missing item recorded under a truthy title
    split
    · -- parent folder already in scanned_folders
      rename_i hhas
      refine ⟨h.1, h.2.1, ?_⟩
      intro t p hmem ht
      rcases (mem_missingPairs_add _ _ _ _ _).mp hmem with hold | ⟨_, hp⟩
      · exact h.2.2 t p hold ht
      · subst hp
        exact listHas_iff_mem.mp hhas
    split
    · -- truthy library id: request issued, folder marked
      rename_i hnot _
      have hmem : dirname (joinPath root file) ∉ st.scanned_folders := by
        intro hc
        exact absurd (listHas_iff_mem.mpr hc) (by simpa using hnot)
      refine ⟨?_, ?_, ?_⟩
      · show st.scanned_folders ++ _ = (st.requests ++ _).map Prod.snd
        rw [List.map_append, h.1]; rfl
      · show (st.scanned_folders ++ [dirname (joinPath root file)]).Nodup
        simp [List.nodup_append, h.2.1, hmem]
      · intro t p hmemp ht
        show dirname p ∈ st.scanned_folders ++ [dirname (joinPath root file)]
        rcases (mem_missingPairs_add _ _ _ _ _).mp hmemp with hold | ⟨_, hp⟩
        · exact List.mem_append.mpr (Or.inl (h.2.2 t p hold ht))
        · subst hp
          exact List.mem_append.mpr (Or.inr (List.mem_singleton_self _))
    · -- falsy library id: only a warning is recorded
      rename_i hfalsy
      refine ⟨h.1, h.2.1, ?_⟩
      intro t p hmemp ht
      rcases (mem_missingPairs_add _ _ _ _ _).mp hmemp with hold | ⟨_, hp⟩
      · exact h.2.2 t p hold ht
      · subst hp
        exact absurd ht (by simpa using hfalsy)
  · exact scanInv_of_eq_parts env st _ h rfl rfl rfl

theorem foldl_scanInv {α : Type} (env : Env) (f : ScanState → α → ScanState)
    (hf : ∀ st a, ScanInv env st → ScanInv env (f st a)) :
    ∀ (l : List α) (st), ScanInv env st → ScanInv env (l.foldl f st) := by
  intro l
  induction l with
  | nil => intro st h; exact h
  | cons a rest ih => intro st h; exact ih _ (hf st a h)

theorem processWalkEntry_scanInv (env : Env) (st : ScanState)
    (entry : String × List String) (h : ScanInv env st) :
    ScanInv env (processWalkEntry env st entry) :=
  foldl_scanInv env _ (fun st' f h' => processFile_scanInv env st' entry.1 f h') entry.2 st h

theorem processScanEntry_scanInv (env : Env) (st : ScanState)
    (entry : String × Option (List (String × List String))) (h : ScanInv env st) :
    ScanInv env (processScanEntry env st entry) := by
  unfold processScanEntry
  match entry.2 with
  | none => exact scanInv_of_eq_parts env st _ h rfl rfl rfl
  | some walk =>
    exact foldl_scanInv env _ (fun st' e h' => processWalkEntry_scanInv env st' e h') walk st h

theorem run_scan_inv_requests (env : Env) (ids0 : List (String × String)) :
    ((run_scan env ids0).requests.map Prod.snd).Nodup ∧
    ∀ t p, (t, p) ∈ missingPairs (run_scan env ids0).stats →
      truthyStr (get_library_id_for_path env.httpSections p).1 = true →
      dirname p ∈ (run_scan env ids0).requests.map Prod.snd := by
  unfold run_scan
  dsimp only
  split
  · constructor
    · simp
    · intro t p hm _
      simp [missingPairs, RunStats.add_error, RunStats.init] at hm
  · have h0 : ScanInv env
        { stats := RunStats.init, libFiles := [], scanned_folders := [], requests := [] } := by
      refine ⟨rfl, List.nodup_nil, ?_⟩
      intro t p hm _
      simp [missingPairs, RunStats.init] at hm
    have hinv := foldl_scanInv env (processScanEntry env)
      (fun st' e h' => processScanEntry_scanInv env st' e h') env.scans _ h0
    constructor
    · show (reqFolders _).Nodup
      rw [← hinv.1]
      exact hinv.2.1
    · intro t p hm ht
      have hd := hinv.2.2 t p hm ht
      rw [hinv.1] at hd
      exact hd

theorem lfContains_lfInsert (st : LibFiles) (id : String) (v : List String) :
    lfContains (lfInsert st id v) id = true := by
  induction st with
  | nil => simp [lfInsert, lfContains]
  | cons kv rest ih =>
    unfold lfInsert
    split
    · simp [lfContains]
    · unfold lfContains at ih ⊢
      simp only [List.any_cons, Bool.or_eq_true]
      exact Or.inr ih

/-! ### Claim theorems -/

/-- C1: the claim states that section resolution must match a root location
only on a path-component boundary, so that `/media/Movies2/x.mkv` is never
matched against the root `/media/Movies`.  The code at rescan.py line 335
uses a raw `startswith` with no separator-boundary check, so the path IS
matched against that root and resolved to its section; this theorem evaluates
the embedded code at exactly that failing input. -/
theorem get_library_id_boundary_bug :
    get_library_id_for_path (.ok [⟨"1", "movie", "Movies", ["/media/Movies"]⟩])
      "/media/Movies2/x.mkv" = (some "1", some "Movies") := by decide

/-- C2 counterexample: after a failed inventory build, the membership check
itself re-creates an empty set through the `defaultdict`, so a later
membership query for the very same section is answered `false` from that
empty set even when the build function would now succeed and report the
queried file — the build is never retried.  (The final conjunct shows that
from a genuinely unbuilt state the same environment finds the file.) -/
theorem inventory_retry_counterexample :
    is_in_plex envErr [] "/media/Movies/f.mkv" = (false, [("1", [])]) ∧
    envOkF.buildFiles "1" = .ok ["/media/Movies/f.mkv"] ∧
    is_in_plex envOkF [("1", [])] "/media/Movies/f.mkv" = (false, [("1", [])]) ∧
    is_in_plex envOkF [] "/media/Movies/f.mkv" = (true, [("1", ["/media/Movies/f.mkv"])]) :=
  ⟨by decide, rfl, by decide, by decide⟩

/-- C2 amended: when building a section inventory fails, the partial set is
discarded and `cache_library_files` leaves the cache exactly as it was; but a
section whose cache entry is the empty set (the state the `defaultdict` read
in `is_in_plex` creates right after a failed build) has every later
membership query answered `false` from that empty set, with no rebuild
regardless of the build function. -/
theorem inventory_failure_discard_no_retry :
    (∀ (env : Env) (st : LibFiles) (library_id : String) (gathered : List String),
        lfContains st library_id = false →
        env.buildFiles library_id = .error gathered →
        cache_library_files env st library_id = st) ∧
    (∀ (env : Env) (st : LibFiles) (file_path library_id : String),
        (get_library_id_for_path env.httpSections file_path).1 = some library_id →
        library_id ≠ "" →
        lfLookup st library_id = some [] →
        is_in_plex env st file_path = (false, st)) := by
  constructor
  · intro env st id gathered hnc hb
    unfold cache_library_files
    rw [if_neg (by simp [hnc]), hb]
    dsimp only
    by_cases hg : gathered = []
    · rw [if_pos hg, if_neg (by simp [hnc])]
    · rw [if_neg hg, if_pos (by simp [lfContains_lfInsert])]
      exact lfErase_insert_of_not_contains hnc
  · intro env st fp id hres hne hlk
    have hc : lfContains st id = true := lfContains_of_lookup hlk
    have hcache : cache_library_files env st id = st := by
      unfold cache_library_files
      rw [if_pos hc]
    have hdd : ddGet st id = ([], st) := by
      unfold ddGet
      rw [hlk]
    unfold is_in_plex
    dsimp only
    rw [hres]
    dsimp only
    rw [if_neg hne, hcache, hdd]
    rfl

/-- C2 amended witness: the discard branch and the no-retry branch of
`inventory_failure_discard_no_retry`, at concrete inputs. -/
theorem inventory_failure_discard_no_retry_witness :
    cache_library_files envErr [] "1" = [] ∧
    is_in_plex envOkF [("1", [])] "/media/Movies/f.mkv" = (false, [("1", [])]) :=
  ⟨inventory_failure_discard_no_retry.1 envErr [] "1" ["/media/Movies/old.mkv"]
      (by decide) rfl,
   inventory_failure_discard_no_retry.2 envOkF [("1", [])] "/media/Movies/f.mkv" "1"
      (by decide) (by decide) (by decide)⟩

/-- C3: within a run, the requested folders are pairwise distinct (every
parent folder triggers at most one re-index request, however many missing
files it contains), and whenever a file is recorded missing and its path
resolves to a truthy library id — here two such files (possibly equal)
sharing a parent directory — the list of requested folders contains that
parent directory exactly once. -/
theorem parent_folder_single_reindex (env : Env) (ids0 : List (String × String))
    (t1 p1 t2 p2 : String)
    (h1 : (t1, p1) ∈ missingPairs (run_scan env ids0).stats)
    (h2 : (t2, p2) ∈ missingPairs (run_scan env ids0).stats)
    (hparent : dirname p1 = dirname p2)
    (hid : truthyStr (get_library_id_for_path env.httpSections p1).1 = true) :
    ((run_scan env ids0).requests.map Prod.snd).Nodup ∧
    List.count (dirname p1) ((run_scan env ids0).requests.map Prod.snd) = 1 := by
  have h := run_scan_inv_requests env ids0
  exact ⟨h.1, List.count_eq_one_of_mem h.1 (h.2 t1 p1 h1 hid)⟩

/-- C3 witness: two files under `/media/Movies/M1`, both missing, and the run
issues exactly one re-index request for that folder. -/
theorem parent_folder_single_reindex_witness :
    ((run_scan envC3 []).requests.map Prod.snd).Nodup ∧
    List.count (dirname "/media/Movies/M1/a.mkv")
      ((run_scan envC3 []).requests.map Prod.snd) = 1 :=
  parent_folder_single_reindex envC3 [] "Movies" "/media/Movies/M1/a.mkv"
    "Movies" "/media/Movies/M1/b.mkv" (by decide) (by decide) (by decide) (by decide)

/-- C4: whenever some section root matches a file path (raw-prefix match on
normalized paths, as the code performs it), resolution returns the id and
title of a matching row whose normalized root is longest among all matches. -/
theorem longest_root_match (sections : List PlexSection) (file_path : String)
    (r0 : String × String × String × String)
    (h0 : r0 ∈ matchingSections sections) (hm0 : rowMatches file_path r0 = true) :
    ∃ r, r ∈ matchingSections sections ∧ rowMatches file_path r = true ∧
      get_library_id_for_path (.ok sections) file_path = (some r.1, some r.2.2.2) ∧
      ∀ r', r' ∈ matchingSections sections → rowMatches file_path r' = true →
        (normpath r'.2.2.1).length ≤ (normpath r.2.2.1).length := by
  rcases foldl_bestStep_shape file_path (matchingSections sections) (none, 0) with
    h | ⟨r, hr, hm, he⟩
  · exfalso
    have hge := foldl_bestStep_ge_matches file_path (matchingSections sections) (none, 0) r0 h0 hm0
    rw [h] at hge
    simp only at hge
    have hpos := normpath_length_pos (r0.2.2.1)
    omega
  · refine ⟨r, hr, hm, ?_, ?_⟩
    · simp only [get_library_id_for_path, he]
    · intro r' hr' hm'
      have hge := foldl_bestStep_ge_matches file_path (matchingSections sections) (none, 0) r' hr' hm'
      rw [he] at hge
      simpa using hge

/-- C4 witness: with nested roots `/media/tv` and `/media/tv/anime`, the path
`/media/tv/anime/ep1.mkv` resolves to a longest-matching row. -/
theorem longest_root_match_witness :
    ∃ r, r ∈ matchingSections [tvSec, animeSec] ∧
      rowMatches "/media/tv/anime/ep1.mkv" r = true ∧
      get_library_id_for_path (.ok [tvSec, animeSec]) "/media/tv/anime/ep1.mkv"
        = (some r.1, some r.2.2.2) ∧
      ∀ r', r' ∈ matchingSections [tvSec, animeSec] →
        rowMatches "/media/tv/anime/ep1.mkv" r' = true →
        (normpath r'.2.2.1).length ≤ (normpath r.2.2.1).length :=
  longest_root_match [tvSec, animeSec] "/media/tv/anime/ep1.mkv"
    ("3", "show", "/media/tv/anime", "Anime") (by decide) (by decide)

/-- Concrete evaluation of the nested-roots example: the path resolves to the
section rooted at `/media/tv/anime`, not the one rooted at `/media/tv`. -/
theorem nested_roots_resolve_example :
    get_library_id_for_path (.ok [tvSec, animeSec]) "/media/tv/anime/ep1.mkv"
      = (some "3", some "Anime") := by decide

/-- C5 counterexample: with every re-index request failing, a run over two
missing files sharing the parent `/media/Movies/M1` records NO error in
RunStats and issues the request only once — the folder is marked scanned even
though the request failed, so the second missing file does not retry it. -/
theorem reindex_failure_counterexample :
    (run_scan envC5 []).stats.errors = [] ∧
    (run_scan envC5 []).requests = [("1", "/media/Movies/M1")] ∧
    ("Movies", "/media/Movies/M1/a.mkv") ∈ missingPairs (run_scan envC5 []).stats ∧
    ("Movies", "/media/Movies/M1/b.mkv") ∈ missingPairs (run_scan envC5 []).stats :=
  ⟨by decide, by decide, by decide, by decide⟩

/-- C5 amended: the outcome of re-index requests is invisible to the run —
the entire run result (stats, errors included, and requests) is the same
whatever the request outcomes are — and each folder is requested at most
once, failures included: a failed request is not retried within the run. -/
theorem reindex_failure_ignored (env : Env) (ids0 : List (String × String))
    (f g : String → String → Bool) :
    run_scan { env with reindexOk := f } ids0 = run_scan { env with reindexOk := g } ids0 ∧
    ((run_scan { env with reindexOk := f } ids0).requests.map Prod.snd).Nodup :=
  ⟨rfl, (run_scan_inv_requests { env with reindexOk := f } ids0).1⟩

/-- C6 counterexample: a run over one media file whose path no section root
matches: the file is scanned, excluded from missing accounting and triggers
no re-index request, but NO warning is recorded in RunStats (the code only
logs the resolution miss). -/
theorem unresolved_warning_counterexample :
    get_library_id_for_path envC6.httpSections "/data/x.mkv" = (none, none) ∧
    (run_scan envC6 []).stats.total_scanned = 1 ∧
    (run_scan envC6 []).stats.warnings = [] ∧
    (run_scan envC6 []).stats.total_missing = 0 ∧
    (run_scan envC6 []).requests = [] :=
  ⟨by decide, by decide, by decide, by decide, by decide⟩

/-- C6 amended: a candidate file (passing the hidden-name, extension and
symlink filters) whose path resolves to no section only increments the
scanned counter: no missing item, no warning in RunStats, no error, no
re-index request, no cache or folder-set change. -/
theorem unresolved_path_only_scanned (env : Env) (st : ScanState) (root file : String)
    (h1 : listStartsWith file.toList ['.'] = false)
    (h2 : listHas MEDIA_EXTENSIONS (lowerStr (splitextExt file)) = true)
    (h3 : (env.symlink_check && is_broken_symlink env (joinPath root file)) = false)
    (h4 : get_library_id_for_path env.httpSections (joinPath root file) = (none, none)) :
    processFile env st root file = { st with stats := st.stats.increment_scanned } := by
  unfold processFile
  rw [if_neg (by simpa using h1), if_neg (by simp [h2])]
  dsimp only
  rw [if_neg (by simp [h3])]
  have hplex : is_in_plex env st.libFiles (joinPath root file) = (false, st.libFiles) := by
    unfold is_in_plex
    rw [h4]
  rw [hplex, h4]
  rfl

/-- C6 amended witness: `/data/x.mkv` under an environment whose roots are
`/media/Movies` and `/media/TV`. -/
theorem unresolved_path_only_scanned_witness :
    processFile baseEnv
      { stats := RunStats.init, libFiles := [], scanned_folders := [], requests := [] }
      "/data" "x.mkv"
      = { stats := RunStats.init.increment_scanned, libFiles := [],
          scanned_folders := [], requests := [] } :=
  unresolved_path_only_scanned baseEnv
    { stats := RunStats.init, libFiles := [], scanned_folders := [], requests := [] }
    "/data" "x.mkv" (by decide) (by decide) (by decide) (by decide)

/-- C7: when the fetched section list has no movie-type section (or no
show-type section), a run starting from an empty `library_ids` global records
the configuration error, emits the summary, and returns with zero scanned and
missing counts and no re-index requests. -/
theorem missing_section_types_fail_fast (env : Env)
    (h : (∀ s ∈ env.plexSections, s.type ≠ "movie") ∨
         (∀ s ∈ env.plexSections, s.type ≠ "show")) :
    run_scan env [] =
      { stats := { missing_items := [],
                   errors := ["Could not find both Movie and TV Show libraries."],
                   warnings := [], total_scanned := 0, total_missing := 0,
                   broken_symlinks := 0 },
        requests := [], summarySent := true } := by
  unfold run_scan
  dsimp only
  rcases h with h | h
  · have hm := alGet_get_library_ids_none env.plexSections "movie" [] rfl h
    rw [hm]
    rfl
  · have hm := alGet_get_library_ids_none env.plexSections "show" [] rfl h
    rw [hm]
    simp [truthyStr, RunStats.add_error, RunStats.init]

/-- C7 witness: a section list containing only a show section fails fast. -/
theorem missing_section_types_fail_fast_witness :
    run_scan { baseEnv with plexSections := [showSec] } [] =
      { stats := { missing_items := [],
                   errors := ["Could not find both Movie and TV Show libraries."],
                   warnings := [], total_scanned := 0, total_missing := 0,
                   broken_symlinks := 0 },
        requests := [], summarySent := true } :=
  missing_section_types_fail_fast { baseEnv with plexSections := [showSec] }
    (Or.inl (by decide))

/-- C8: a walked file whose name starts with the hidden-file marker, or whose
lower-cased extension is not in MEDIA_EXTENSIONS, is skipped entirely: the
state (scanned count, missing items, cache, folders, requests) is unchanged. -/
theorem walker_skips_non_media (env : Env) (st : ScanState) (root file : String)
    (h : listStartsWith file.toList ['.'] = true ∨
         listHas MEDIA_EXTENSIONS (lowerStr (splitextExt file)) = false) :
    processFile env st root file = st := by
  unfold processFile
  rcases h with h | h
  · rw [if_pos h]
  · by_cases hh : listStartsWith file.toList ['.'] = true
    · rw [if_pos hh]
    · rw [if_neg hh, if_pos (by simp [h])]

/-- C8 witness: the non-media file `notes.txt` is skipped. -/
theorem walker_skips_non_media_witness :
    processFile baseEnv
      { stats := RunStats.init, libFiles := [], scanned_folders := [], requests := [] }
      "/media/Movies/M1" "notes.txt"
      = { stats := RunStats.init, libFiles := [], scanned_folders := [], requests := [] } :=
  walker_skips_non_media baseEnv
    { stats := RunStats.init, libFiles := [], scanned_folders := [], requests := [] }
    "/media/Movies/M1" "notes.txt" (Or.inr (by decide))

/-- C9: with symlink checking enabled, a candidate media file that is a broken
symlink only increments the broken-symlink counter: it is not scanned, not
missing, and no error, warning, cache change or request results. -/
theorem broken_symlink_only_counter (env : Env) (st : ScanState) (root file : String)
    (h1 : listStartsWith file.toList ['.'] = false)
    (h2 : listHas MEDIA_EXTENSIONS (lowerStr (splitextExt file)) = true)
    (h3 : env.symlink_check = true)
    (h4 : is_broken_symlink env (joinPath root file) = true) :
    processFile env st root file =
      { st with stats := { st.stats with broken_symlinks := st.stats.broken_symlinks + 1 } } := by
  unfold processFile
  rw [if_neg (by simpa using h1), if_neg (by simp [h2])]
  dsimp only
  rw [if_pos (by simp [h3, h4])]
  rfl

/-- C9 witness: a broken-symlink media file increments only the counter. -/
theorem broken_symlink_only_counter_witness :
    processFile envLink
      { stats := RunStats.init, libFiles := [], scanned_folders := [], requests := [] }
      "/media/Movies/M1" "a.mkv"
      = { stats := { RunStats.init with broken_symlinks := 1 }, libFiles := [],
          scanned_folders := [], requests := [] } :=
  broken_symlink_only_counter envLink
    { stats := RunStats.init, libFiles := [], scanned_folders := [], requests := [] }
    "/media/Movies/M1" "a.mkv" (by decide) (by decide) rfl (by decide)

/-- C10: `total_missing` equals the summed lengths of the per-title missing
lists: the invariant holds for the constructor and is preserved by every
mutating operation of RunStats. -/
theorem runstats_total_missing_invariant :
    statsInv RunStats.init ∧
    (∀ (s : RunStats) (t p : String), statsInv s → statsInv (s.add_missing_item t p)) ∧
    (∀ (s : RunStats) (e : String), statsInv s → statsInv (s.add_error e)) ∧
    (∀ (s : RunStats) (w : String), statsInv s → statsInv (s.add_warning w)) ∧
    (∀ s : RunStats, statsInv s → statsInv s.increment_scanned) ∧
    (∀ s : RunStats, statsInv s → statsInv s.increment_broken_symlinks) := by
  refine ⟨by simp [statsInv, RunStats.init], ?_, ?_, ?_, ?_, ?_⟩
  · intro s t p h
    unfold statsInv RunStats.add_missing_item
    dsimp only
    rw [ddAppend_sum_lengths, ← h]
  · intro s e h; exact h
  · intro s w h; exact h
  · intro s h; exact h
  · intro s h; exact h

/-- C10 witness: the invariant after recording one missing item on a fresh
RunStats. -/
theorem runstats_total_missing_invariant_witness :
    statsInv (RunStats.init.add_missing_item "Movies" "/media/Movies/M1/a.mkv") :=
  runstats_total_missing_invariant.2.1 RunStats.init "Movies" "/media/Movies/M1/a.mkv" rfl

end Rescan
